import Mathlib

/-
Verification of the find-uncommitted repository scanner.

The program shells out to an external `git` executable; we model each
subprocess invocation's outcome (captured standard output on success,
or exit code plus captured standard error on failure) as a value of
`Except CmdError String`, and the whole set of invocations a single
repository probe can make as a `GitEnv` record.  `checkRepoStatus`
is then a pure function of the repository path and that environment,
translated line by line from `checkRepoStatus` in src/main.go
(identical in src/unnamed/part_002).

File paths are represented by their list of segments (`List String`);
`filepath.Base` is the last segment and `filepath.Dir` drops it, which
is exact for the cleaned, separator-free segment names the walker
produces.  Rendering a path as a string joins the segments with "/".
-/

namespace FindUncommitted

/-- Outcome of a failed subprocess invocation: either the process ran and
exited with a code (carrying captured standard error), mirroring Go's
`*exec.ExitError`, or the invocation failed some other way. -/
inductive CmdError where
  | exitError (code : Nat) (stderr : String)
  | otherError (msg : String)
deriving DecidableEq, Repr

/-- Rendering of a command error as Go's `fmt.Sprintf("%v", err)` renders it:
an `*exec.ExitError` prints as "exit status N". -/
def CmdError.toMessage : CmdError → String
  | .exitError code _ => "exit status " ++ toString code
  | .otherError msg => msg

/-- Mirrors the Go test `exitErr, ok := err.(*exec.ExitError); ok && exitErr.ExitCode() == 1`
used to recognize the detached-HEAD failure of `git branch --show-current`. -/
def CmdError.isNoBranch : CmdError → Bool
  | .exitError 1 _ => true
  | _ => false

/-- Mirrors the Go test `exitErr, ok := err.(*exec.ExitError); ok && exitErr.ExitCode() == 128`
used to recognize the no-upstream failure of `git rev-list --count @{u}..HEAD`. -/
def CmdError.isNoUpstream : CmdError → Bool
  | .exitError 128 _ => true
  | _ => false

/-- Result of one subprocess invocation: captured standard output on
success, `CmdError` on failure. -/
abbrev CmdResult := Except CmdError String

/-- The outcomes of the eight distinct git invocations `checkRepoStatus`
can issue for one repository, fixed up front: the probe is a pure
function of this record. -/
structure GitEnv where
  revParseGitDir : CmdResult
  branchShowCurrent : CmdResult
  revParseShortHead : CmdResult
  diffNameOnly : CmdResult
  diffCachedNameOnly : CmdResult
  lsFilesOthers : CmdResult
  revListUpstream : CmdResult
  revListHead : CmdResult
deriving Repr

/-- The per-repository status record, translated field by field from the Go
struct `RepoStatus` (src/main.go lines 13-22); Go zero values are the
defaults. -/
structure RepoStatus where
  path : String
  hasUnstaged : Bool := false
  hasStaged : Bool := false
  hasUntracked : Bool := false
  hasUnpushed : Bool := false
  branch : String := ""
  isClean : Bool := false
  error : String := ""
deriving DecidableEq, Repr

/-- Go's `strings.TrimSpace`: drop leading and trailing whitespace.
Implemented on the character list so that it evaluates by kernel
reduction. -/
def trimSpace (s : String) : String :=
  String.mk (((s.data.dropWhile Char.isWhitespace).reverse.dropWhile Char.isWhitespace).reverse)

/-- Go's `strings.HasPrefix`: `pat` is a prefix of `s`.  Implemented on the
character list so that it evaluates by kernel reduction. -/
def strStartsWith (s pat : String) : Bool := pat.data.isPrefixOf s.data

/-- Pattern `pat` occurring as a contiguous sublist of `l`. -/
def containsSub : List Char → List Char → Bool
  | [], pat => pat.isEmpty
  | c :: rest, pat => pat.isPrefixOf (c :: rest) || containsSub rest pat

/-- Go's `strings.Contains`: `pat` occurring as a contiguous substring of `s`. -/
def strContains (s pat : String) : Bool := containsSub s.data pat.data

/-- Go's `strings.ReplaceAll(s, "\\", "/")`: since the pattern is a single
character, this is a character map. -/
def slashify (s : String) : String :=
  String.mk (s.data.map (fun c => if c == '\\' then '/' else c))

/-- Go's `len(strings.TrimSpace(out)) > 0`: the output is non-blank. -/
def nonBlank (out : String) : Bool := !(trimSpace out).data.isEmpty

/-- Validity check step of `checkRepoStatus` (src/main.go lines 155-168):
`git rev-parse --git-dir`.  `some st` means the probe returns `st`
immediately; `none` means the probe continues. -/
def validityCheck (repoPath : String) (env : GitEnv) : Option RepoStatus :=
  match env.revParseGitDir with
  | .ok _ => none
  | .error e =>
    let st : RepoStatus := { path := repoPath }
    match e with
    | .exitError _ stderr =>
      if strContains stderr "dubious ownership" then
        some { st with error :=
          "Git ownership issue - run: git config --global --add safe.directory "
            ++ slashify repoPath }
      else
        some { st with error := "Not a valid git repository" }
    | .otherError _ => some { st with error := "Not a valid git repository" }

/-- Branch step of `checkRepoStatus` (src/main.go lines 170-190):
`git branch --show-current`, with the detached-HEAD fallback
`git rev-parse --short HEAD`.  Never aborts the probe. -/
def branchStep (env : GitEnv) (st : RepoStatus) : RepoStatus :=
  match env.branchShowCurrent with
  | .ok branch => { st with branch := trimSpace branch }
  | .error err =>
    if err.isNoBranch then
      match env.revParseShortHead with
      | .ok commit => { st with branch := "detached HEAD (" ++ trimSpace commit ++ ")" }
      | .error _ => { st with branch := "detached HEAD",
                              error := "Branch issue: " ++ err.toMessage }
    else
      { st with branch := "unknown", error := "Branch issue: " ++ err.toMessage }

/-- Unstaged-diff step (src/main.go lines 192-202): `git diff --name-only`.
`.error st` models the early `return status`. -/
def unstagedStep (env : GitEnv) (st : RepoStatus) : Except RepoStatus RepoStatus :=
  match env.diffNameOnly with
  | .error err =>
    if st.error == "" then
      .error { st with error := "Failed to check unstaged changes: " ++ err.toMessage }
    else
      .error { st with error := st.error ++ "; unstaged check failed: " ++ err.toMessage }
  | .ok out => .ok { st with hasUnstaged := nonBlank out }

/-- Staged-diff step (src/main.go lines 204-214): `git diff --cached --name-only`. -/
def stagedStep (env : GitEnv) (st : RepoStatus) : Except RepoStatus RepoStatus :=
  match env.diffCachedNameOnly with
  | .error err =>
    if st.error == "" then
      .error { st with error := "Failed to check staged changes: " ++ err.toMessage }
    else
      .error { st with error := st.error ++ "; staged check failed: " ++ err.toMessage }
  | .ok out => .ok { st with hasStaged := nonBlank out }

/-- Untracked-files step (src/main.go lines 216-226):
`git ls-files --others --exclude-standard`. -/
def untrackedStep (env : GitEnv) (st : RepoStatus) : Except RepoStatus RepoStatus :=
  match env.lsFilesOthers with
  | .error err =>
    if st.error == "" then
      .error { st with error := "Failed to check untracked files: " ++ err.toMessage }
    else
      .error { st with error := st.error ++ "; untracked check failed: " ++ err.toMessage }
  | .ok out => .ok { st with hasUntracked := nonBlank out }

/-- Unpushed-commits step (src/main.go lines 228-252):
`git rev-list --count @\x7bu\x7d..HEAD`, with the no-upstream fallback
`git rev-list --count HEAD`.  Never sets an error and never aborts;
on other failures the status is left untouched (the Go code only
prints a debug line). -/
def unpushedStep (env : GitEnv) (st : RepoStatus) : RepoStatus :=
  match env.revListUpstream with
  | .ok unpushed =>
    if trimSpace unpushed != "0" then { st with hasUnpushed := true } else st
  | .error err =>
    if err.isNoUpstream then
      match env.revListHead with
      | .ok commitCount =>
        if trimSpace commitCount != "0" then { st with hasUnpushed := true } else st
      | .error _ => st
    else
      st

/-- Final clean computation (src/main.go line 255). -/
def finalize (st : RepoStatus) : RepoStatus :=
  { st with isClean := !st.hasUnstaged && !st.hasStaged && !st.hasUntracked && !st.hasUnpushed }

/-- The whole status probe, `checkRepoStatus` from src/main.go lines 150-258,
as the sequential composition of its steps with the source's early
returns. -/
def checkRepoStatus (repoPath : String) (env : GitEnv) : RepoStatus :=
  match validityCheck repoPath env with
  | some st => st
  | none =>
    let st := branchStep env { path := repoPath }
    match unstagedStep env st with
    | .error st => st
    | .ok st =>
      match stagedStep env st with
      | .error st => st
      | .ok st =>
        match untrackedStep env st with
        | .error st => st
        | .ok st => finalize (unpushedStep env st)

mutual
/-- A directory tree as seen by `filepath.Walk`: each entry has a base name;
directories carry their children in traversal order (`filepath.Walk`
visits names in sorted order, so the forest is taken as already sorted —
no stated property depends on the order). -/
inductive FSEntry where
  | file (name : String) : FSEntry
  | dir (name : String) (children : FSForest) : FSEntry
/-- A list of sibling filesystem entries. -/
inductive FSForest where
  | nil : FSForest
  | cons (e : FSEntry) (rest : FSForest) : FSForest
end

/-- Render a segment path the way Go renders it with "/" separators. -/
def pathString (p : List String) : String := String.intercalate "/" p

/-- The skip test of `findGitRepos` (src/main.go lines 124-137), applied to a
directory that is not named ".git": base name hidden or a known build
directory, or the full path containing a Windows system-path substring. -/
def skipDir (base : String) (path : String) : Bool :=
  strStartsWith base "." ||
  base == "node_modules" ||
  base == "vendor" ||
  base == "bin" ||
  base == "obj" ||
  strContains path "\\Windows\\" ||
  strContains path "\\Program Files\\" ||
  strContains path "\\Program Files (x86)\\"

mutual
/-- The `filepath.Walk` callback of `findGitRepos` (src/main.go lines
100-141) run over a tree, returning the repositories recorded and the
list of directory paths actually descended into.  `parent` is the
segment path of the directory containing the entry.  A directory named
".git" records its parent (`filepath.Dir`) as a repository and is not
entered (`filepath.SkipDir`); a directory matching `skipDir` is not
entered; files are visited but contribute nothing. -/
def walkAcc : List String → FSEntry → List (List String) × List (List String)
  | _, .file _ => ([], [])
  | parent, .dir name children =>
    let path := parent ++ [name]
    if name == ".git" then ([parent], [])
    else if skipDir name (pathString path) then ([], [])
    else
      let rest := walkListAcc path children
      (rest.1, path :: rest.2)

/-- Walk a forest of sibling entries in order, concatenating results. -/
def walkListAcc : List String → FSForest → List (List String) × List (List String)
  | _, .nil => ([], [])
  | path, .cons c cs =>
    let r₁ := walkAcc path c
    let r₂ := walkListAcc path cs
    (r₁.1 ++ r₂.1, r₁.2 ++ r₂.2)
end

/-- Function `findGitRepos` (src/main.go lines 97-148): the repositories found when
walking the scan root.  The scan root directory is `root`; `rootParent`
is the segment path of its parent (empty when the root path has a single
segment), so the root's own path is `rootParent ++ [root.name]`, exactly
as `filepath.Walk` first visits the root path itself. -/
def findGitRepos (rootParent : List String) (root : FSEntry) : List (List String) :=
  (walkAcc rootParent root).1

/-- The directory paths the walk of `findGitRepos` descends into. -/
def descendedDirs (rootParent : List String) (root : FSEntry) : List (List String) :=
  (walkAcc rootParent root).2

/-- Build a forest from a list of entries (literal convenience). -/
def forestOf : List FSEntry → FSForest
  | [] => .nil
  | e :: es => .cons e (forestOf es)

example :
    findGitRepos ["home"]
      (.dir "u" (forestOf
        [.dir "proj" (forestOf [.dir ".git" (forestOf [.dir "objects" .nil]), .file "main.go"]),
         .dir "node_modules" (forestOf [.dir "x" (forestOf [.dir ".git" .nil])]),
         .dir ".cache" (forestOf [.dir ".git" .nil])]))
      = [["home", "u", "proj"]] := by decide

/-- Function `getChangesText` (src/unnamed/part_002 lines 407-422): the names of the
set flags, in source order. -/
def getChangesText (st : RepoStatus) : List String :=
  (if st.hasUnstaged then ["unstaged"] else []) ++
  (if st.hasStaged then ["staged"] else []) ++
  (if st.hasUntracked then ["untracked"] else []) ++
  (if st.hasUnpushed then ["unpushed"] else [])

/-- The status marker of a table row (src/unnamed/part_002 lines 313-321):
the error text is checked first, then the clean flag. -/
def statusMarker (st : RepoStatus) : String :=
  if st.error != "" then "❌ Error"
  else if st.isClean then "✅ Clean"
  else "⚠️  Dirty"

/-- The changes column of a table row (src/unnamed/part_002 lines 313-336). -/
def tableChanges (st : RepoStatus) : String :=
  if st.error != "" then st.error
  else if st.isClean then "-"
  else String.intercalate ", " (getChangesText st)

/-- The last `n` characters of `s` (Go's `s[len(s)-n:]`, modelled on
characters rather than bytes). -/
def takeRightChars (s : String) (n : Nat) : String :=
  String.mk (s.data.drop (s.data.length - n))

/-- The displayed repository path (src/unnamed/part_002 lines 301-310 and
366-375, identical in both renderers): the path relative to the working
directory — abstracted as the function `relOf`, standing for
`filepath.Rel(wd, ·)` with its error ignored — falling back to the
absolute path when the relative path is ".", elided from the left beyond
42 characters. -/
def displayPath (relOf : String → String) (path : String) : String :=
  let rel0 := relOf path
  let rel1 := if rel0 == "." then path else rel0
  if rel1.data.length > 42 then "..." ++ takeRightChars rel1 39 else rel1

/-- The displayed branch label (src/unnamed/part_002 lines 338-342 and
378-382): elided beyond 17 characters. -/
def branchDisplay (branch : String) : String :=
  if branch.data.length > 17 then String.mk (branch.data.take 14) ++ "..." else branch

/-- The four cells of one rendered table row, before column padding. -/
def tableCells (relOf : String → String) (st : RepoStatus) : List String :=
  [displayPath relOf st.path, branchDisplay st.branch, statusMarker st, tableChanges st]

/-- Left-justified padding to width `w`, Go's `%-Ns` format verb. -/
def padRight (s : String) (w : Nat) : String :=
  s ++ String.mk (List.replicate (w - s.data.length) ' ')

/-- One formatted data row of the table,
`fmt.Printf("%-50s %-20s %-10s %s\n", ...)` without the final newline
(src/unnamed/part_002 line 344). -/
def tableLine (relOf : String → String) (st : RepoStatus) : String :=
  padRight (displayPath relOf st.path) 50 ++ " " ++
  padRight (branchDisplay st.branch) 20 ++ " " ++
  padRight (statusMarker st) 10 ++ " " ++
  tableChanges st

/-- Function `displayRepoStatusTable` (src/unnamed/part_002 lines 291-346) as the
list of data rows it prints after the fixed header. -/
def displayRepoStatusTable (relOf : String → String) (results : List RepoStatus) : List String :=
  results.map (tableLine relOf)

/-- The result-collection loop of `main` (src/unnamed/part_002 lines 84-92):
with `--dirty-only`, statuses with no error and a set clean flag are
dropped; everything else is kept in arrival order. -/
def collectResults (dirtyOnly : Bool) (statuses : List RepoStatus) : List RepoStatus :=
  statuses.filter (fun st => !(dirtyOnly && st.error == "" && st.isClean))

/-- The summary-counting loop of `main` (src/unnamed/part_002 lines
107-119): (clean, dirty, error) counts, classifying on the error text
first. -/
def summaryCounts (results : List RepoStatus) : Nat × Nat × Nat :=
  results.foldl
    (fun acc st =>
      if st.error != "" then (acc.1, acc.2.1, acc.2.2 + 1)
      else if st.isClean then (acc.1 + 1, acc.2.1, acc.2.2)
      else (acc.1, acc.2.1 + 1, acc.2.2))
    (0, 0, 0)

/-- The summary line of `main` (src/unnamed/part_002 lines 121-125), without
the leading blank line. -/
def summaryLine (dirtyOnly : Bool) (results : List RepoStatus) : String :=
  let c := summaryCounts results
  if dirtyOnly then
    "Summary: " ++ toString c.2.1 ++ " repositories with uncommitted changes, "
      ++ toString c.2.2 ++ " repositories with errors"
  else
    "Summary: " ++ toString c.1 ++ " clean repositories, "
      ++ toString c.2.1 ++ " repositories with uncommitted changes, "
      ++ toString c.2.2 ++ " repositories with errors"

/-- The status column written to the export file (src/unnamed/part_002
lines 384-392). -/
def csvStatusText (st : RepoStatus) : String :=
  if st.error != "" then "Error: " ++ st.error
  else if st.isClean then "Clean"
  else "Dirty"

/-- One data row of the export file (src/unnamed/part_002 lines 365-399). -/
def csvRow (relOf : String → String) (st : RepoStatus) : List String :=
  [displayPath relOf st.path, branchDisplay st.branch, csvStatusText st,
   String.intercalate ", " (getChangesText st)]

/-- The header row of the export file (src/unnamed/part_002 line 359). -/
def csvHeader : List String := ["Repository", "Branch", "Status", "Changes"]

/-- Modelled from Go's standard `encoding/csv` writer
(`Writer.fieldNeedsQuotes` with the default comma and `UseCRLF=false`,
which `exportToCSV` uses): a field is quoted when it is `\.`, contains a
comma, quote or line-break character, or begins with white space. -/
def fieldNeedsQuotes (f : String) : Bool :=
  if f == "" then false
  else if f == "\\." then true
  else
    f.data.any (fun c => c == ',' || c == '"' || c == '\r' || c == '\n') ||
    (match f.data with
     | [] => false
     | c :: _ => c.isWhitespace)

/-- Double every quote character, the escaping `encoding/csv` applies inside
a quoted field. -/
def escapeQuotes : List Char → List Char
  | [] => []
  | c :: cs => if c == '"' then '"' :: '"' :: escapeQuotes cs else c :: escapeQuotes cs

/-- Modelled from Go's `encoding/csv` writer: one field as written to the
file. -/
def encodeField (f : String) : String :=
  if fieldNeedsQuotes f then "\"" ++ String.mk (escapeQuotes f.data) ++ "\"" else f

/-- Fields of one record joined by the comma separator. -/
def encodeFields : List String → String
  | [] => ""
  | [f] => encodeField f
  | f :: fs => encodeField f ++ "," ++ encodeFields fs

/-- One record as written to the file, terminated by a newline
(`UseCRLF=false`). -/
def encodeRecord (r : List String) : String := encodeFields r ++ "\n"

/-- Modelled from Go's `encoding/csv` writer: the whole file content for a
list of records. -/
def csvEncode : List (List String) → String
  | [] => ""
  | r :: rs => encodeRecord r ++ csvEncode rs

/-- Function `exportToCSV` (src/unnamed/part_002 lines 348-405) as the text written
to the export file: the header row followed by one data row per status. -/
def exportToCSV (relOf : String → String) (results : List RepoStatus) : String :=
  csvEncode (csvHeader :: results.map (csvRow relOf))

/-- Parser state of the `encoding/csv` reader model. -/
inductive CsvMode where
  | fieldStart : CsvMode
  | unquoted : CsvMode
  | quoted : CsvMode
  | postQuote : CsvMode
deriving DecidableEq, Repr

/-- Modelled from Go's standard `encoding/csv` reader with default options:
a single pass over the characters.  `field` is the field being read
(always empty in `fieldStart`), `row` the fields of the record being
read, `rows` the completed records.  Blank lines yield no record, a
quote opens a quoted field only at a field start, `""` inside a quoted
field is an escaped quote.  The reader's normalization of a CRLF pair
inside a quoted field to a bare newline is not modelled; the round-trip
statements therefore require carriage-return-free fields. -/
def csvScan : List Char → CsvMode → String → List String → List (List String) → List (List String)
  | [], .fieldStart, _, row, rows =>
    if row.isEmpty then rows else rows ++ [row ++ [""]]
  | [], _, field, row, rows => rows ++ [row ++ [field]]
  | c :: rest, .fieldStart, field, row, rows =>
    if c == '"' then csvScan rest .quoted field row rows
    else if c == ',' then csvScan rest .fieldStart "" (row ++ [""]) rows
    else if c == '\n' then
      (if row.isEmpty then csvScan rest .fieldStart "" [] rows
       else csvScan rest .fieldStart "" [] (rows ++ [row ++ [""]]))
    else csvScan rest .unquoted (field.push c) row rows
  | c :: rest, .unquoted, field, row, rows =>
    if c == ',' then csvScan rest .fieldStart "" (row ++ [field]) rows
    else if c == '\n' then csvScan rest .fieldStart "" [] (rows ++ [row ++ [field]])
    else csvScan rest .unquoted (field.push c) row rows
  | c :: rest, .quoted, field, row, rows =>
    if c == '"' then csvScan rest .postQuote field row rows
    else csvScan rest .quoted (field.push c) row rows
  | c :: rest, .postQuote, field, row, rows =>
    if c == '"' then csvScan rest .quoted (field.push '"') row rows
    else if c == ',' then csvScan rest .fieldStart "" (row ++ [field]) rows
    else if c == '\n' then csvScan rest .fieldStart "" [] (rows ++ [row ++ [field]])
    else csvScan rest .unquoted (field.push c) row rows

/-- Re-reading the export file: parse the whole text into records. -/
def csvParse (s : String) : List (List String) :=
  csvScan s.data .fieldStart "" [] []

example :
    csvParse (csvEncode [["a,b", "c\"d"], ["x", ""], ["", "y\nz"]])
      = [["a,b", "c\"d"], ["x", ""], ["", "y\nz"]] := by decide

/-- An environment in which every invocation succeeds and the repository is
fully clean. -/
def cleanEnv : GitEnv where
  revParseGitDir := .ok ".git\n"
  branchShowCurrent := .ok "main\n"
  revParseShortHead := .ok "abc1234\n"
  diffNameOnly := .ok ""
  diffCachedNameOnly := .ok ""
  lsFilesOthers := .ok ""
  revListUpstream := .ok "0\n"
  revListHead := .ok "3\n"

example : (checkRepoStatus "/home/u/proj" cleanEnv).isClean = true := by decide
example : (checkRepoStatus "/home/u/proj" cleanEnv).branch = "main" := by decide
example : (checkRepoStatus "/home/u/proj" cleanEnv).error = "" := by decide

/-- A probe whose branch command fails with exit code 2 but whose remaining
commands all report a clean repository. -/
def branchFailEnv : GitEnv :=
  { cleanEnv with branchShowCurrent := .error (.exitError 2 "fatal: oops\n") }

example : (checkRepoStatus "/r" branchFailEnv).isClean = true := by decide
example : (checkRepoStatus "/r" branchFailEnv).error = "Branch issue: exit status 2" := by decide
example : (checkRepoStatus "/r" branchFailEnv).branch = "unknown" := by decide

/-- A probe rejected by the ownership check. -/
def dubiousEnv : GitEnv :=
  { cleanEnv with
    revParseGitDir := .error (.exitError 128 "fatal: detected dubious ownership in repository\n") }

/-- A probe whose validity check fails for another reason. -/
def invalidEnv : GitEnv :=
  { cleanEnv with revParseGitDir := .error (.exitError 128 "fatal: not a git repository\n") }

section ProberLemmas

variable (p : String) (env : GitEnv) (st st' : RepoStatus)

theorem validityCheck_some (h : validityCheck p env = some st) :
    st.isClean = false ∧ st.hasUnstaged = false ∧ st.hasStaged = false ∧
    st.hasUntracked = false ∧ st.hasUnpushed = false := by
  unfold validityCheck at h
  split at h
  · exact absurd h (by simp)
  · split at h <;> [skip; (cases h; exact ⟨rfl, rfl, rfl, rfl, rfl⟩)]
    split at h <;> cases h <;> exact ⟨rfl, rfl, rfl, rfl, rfl⟩

theorem branchStep_isClean : (branchStep env st).isClean = st.isClean := by
  unfold branchStep
  split
  · rfl
  · split
    · split <;> rfl
    · rfl

theorem branchStep_flags :
    (branchStep env st).hasUnstaged = st.hasUnstaged ∧
    (branchStep env st).hasStaged = st.hasStaged ∧
    (branchStep env st).hasUntracked = st.hasUntracked ∧
    (branchStep env st).hasUnpushed = st.hasUnpushed := by
  unfold branchStep
  split
  · exact ⟨rfl, rfl, rfl, rfl⟩
  · split
    · split <;> exact ⟨rfl, rfl, rfl, rfl⟩
    · exact ⟨rfl, rfl, rfl, rfl⟩

theorem unstagedStep_error_same (h : unstagedStep env st = .error st') :
    st'.isClean = st.isClean ∧ st'.hasUnstaged = st.hasUnstaged ∧
    st'.hasStaged = st.hasStaged ∧ st'.hasUntracked = st.hasUntracked ∧
    st'.hasUnpushed = st.hasUnpushed := by
  unfold unstagedStep at h
  split at h
  · split at h <;> cases h <;> exact ⟨rfl, rfl, rfl, rfl, rfl⟩
  · exact absurd h (by simp)

theorem unstagedStep_ok_same (h : unstagedStep env st = .ok st') :
    st'.isClean = st.isClean ∧ st'.hasStaged = st.hasStaged ∧
    st'.hasUntracked = st.hasUntracked ∧ st'.hasUnpushed = st.hasUnpushed ∧
    st'.error = st.error := by
  unfold unstagedStep at h
  split at h
  · split at h <;> exact absurd h (by simp)
  · cases h; exact ⟨rfl, rfl, rfl, rfl, rfl⟩

theorem stagedStep_error_same (h : stagedStep env st = .error st') :
    st'.isClean = st.isClean ∧ st'.hasUnstaged = st.hasUnstaged ∧
    st'.hasStaged = st.hasStaged ∧ st'.hasUntracked = st.hasUntracked ∧
    st'.hasUnpushed = st.hasUnpushed := by
  unfold stagedStep at h
  split at h
  · split at h <;> cases h <;> exact ⟨rfl, rfl, rfl, rfl, rfl⟩
  · exact absurd h (by simp)

theorem stagedStep_ok_same (h : stagedStep env st = .ok st') :
    st'.isClean = st.isClean ∧ st'.hasUnstaged = st.hasUnstaged ∧
    st'.hasUntracked = st.hasUntracked ∧ st'.hasUnpushed = st.hasUnpushed ∧
    st'.error = st.error := by
  unfold stagedStep at h
  split at h
  · split at h <;> exact absurd h (by simp)
  · cases h; exact ⟨rfl, rfl, rfl, rfl, rfl⟩

theorem untrackedStep_error_same (h : untrackedStep env st = .error st') :
    st'.isClean = st.isClean ∧ st'.hasUnstaged = st.hasUnstaged ∧
    st'.hasStaged = st.hasStaged ∧ st'.hasUntracked = st.hasUntracked ∧
    st'.hasUnpushed = st.hasUnpushed := by
  unfold untrackedStep at h
  split at h
  · split at h <;> cases h <;> exact ⟨rfl, rfl, rfl, rfl, rfl⟩
  · exact absurd h (by simp)

theorem untrackedStep_ok_same (h : untrackedStep env st = .ok st') :
    st'.isClean = st.isClean ∧ st'.hasUnstaged = st.hasUnstaged ∧
    st'.hasStaged = st.hasStaged ∧ st'.hasUnpushed = st.hasUnpushed ∧
    st'.error = st.error := by
  unfold untrackedStep at h
  split at h
  · split at h <;> exact absurd h (by simp)
  · cases h; exact ⟨rfl, rfl, rfl, rfl, rfl⟩

theorem unpushedStep_same :
    (unpushedStep env st).isClean = st.isClean ∧
    (unpushedStep env st).hasUnstaged = st.hasUnstaged ∧
    (unpushedStep env st).hasStaged = st.hasStaged ∧
    (unpushedStep env st).hasUntracked = st.hasUntracked ∧
    (unpushedStep env st).error = st.error := by
  unfold unpushedStep
  split
  · split <;> exact ⟨rfl, rfl, rfl, rfl, rfl⟩
  · split
    · split
      · split <;> exact ⟨rfl, rfl, rfl, rfl, rfl⟩
      · exact ⟨rfl, rfl, rfl, rfl, rfl⟩
    · exact ⟨rfl, rfl, rfl, rfl, rfl⟩

theorem finalize_fields :
    (finalize st).hasUnstaged = st.hasUnstaged ∧
    (finalize st).hasStaged = st.hasStaged ∧
    (finalize st).hasUntracked = st.hasUntracked ∧
    (finalize st).hasUnpushed = st.hasUnpushed ∧
    (finalize st).error = st.error ∧
    (finalize st).isClean =
      (!st.hasUnstaged && !st.hasStaged && !st.hasUntracked && !st.hasUnpushed) :=
  ⟨rfl, rfl, rfl, rfl, rfl, rfl⟩

theorem validityCheck_ok (p : String) (env : GitEnv) (g : String)
    (h : env.revParseGitDir = .ok g) : validityCheck p env = none := by
  unfold validityCheck
  rw [h]

theorem validityCheck_error_isClean (p : String) (env : GitEnv) (e : CmdError)
    (he : env.revParseGitDir = .error e) :
    (checkRepoStatus p env).isClean = false := by
  unfold checkRepoStatus
  cases hval : validityCheck p env with
  | some st =>
    simp only [hval]
    exact (validityCheck_some p env st hval).1
  | none =>
    exfalso
    unfold validityCheck at hval
    rw [he] at hval
    cases e
    · dsimp only at hval
      split at hval <;> cases hval
    · cases hval

theorem unstagedStep_error_of (env : GitEnv) (st : RepoStatus) (e : CmdError)
    (he : env.diffNameOnly = .error e) :
    ∃ st', unstagedStep env st = .error st' := by
  simp only [unstagedStep, he]
  split <;> exact ⟨_, rfl⟩

theorem stagedStep_error_of (env : GitEnv) (st : RepoStatus) (e : CmdError)
    (he : env.diffCachedNameOnly = .error e) :
    ∃ st', stagedStep env st = .error st' := by
  simp only [stagedStep, he]
  split <;> exact ⟨_, rfl⟩

theorem untrackedStep_error_of (env : GitEnv) (st : RepoStatus) (e : CmdError)
    (he : env.lsFilesOthers = .error e) :
    ∃ st', untrackedStep env st = .error st' := by
  simp only [untrackedStep, he]
  split <;> exact ⟨_, rfl⟩

theorem unstagedStep_ok_eq (env : GitEnv) (st : RepoStatus) (o : String)
    (ho : env.diffNameOnly = .ok o) :
    unstagedStep env st = .ok { st with hasUnstaged := nonBlank o } := by
  unfold unstagedStep
  rw [ho]

theorem stagedStep_ok_eq (env : GitEnv) (st : RepoStatus) (o : String)
    (ho : env.diffCachedNameOnly = .ok o) :
    stagedStep env st = .ok { st with hasStaged := nonBlank o } := by
  unfold stagedStep
  rw [ho]

theorem untrackedStep_ok_eq (env : GitEnv) (st : RepoStatus) (o : String)
    (ho : env.lsFilesOthers = .ok o) :
    untrackedStep env st = .ok { st with hasUntracked := nonBlank o } := by
  unfold untrackedStep
  rw [ho]

end ProberLemmas

/-- C1 counterexample: a probe whose branch command fails with exit code 2
while every other command reports a clean repository ends with
`isClean = true` and a non-empty `errorMessage`, so the claimed
implication `isClean → errorMessage = ""` is false on the code. -/
theorem claim1_counterexample :
    (checkRepoStatus "/r" branchFailEnv).isClean = true ∧
    (checkRepoStatus "/r" branchFailEnv).error ≠ "" := by
  constructor
  · decide
  · decide

/-- C1 (amended): for every RepositoryStatus produced by the Status Prober,
if `isClean` is true then none of the four boolean flags are set.  The
original claim's other half fails: a non-aborting branch-step failure
records a non-empty `errorMessage` while the probe still runs to the end
and computes `isClean`. -/
theorem claim1_isClean_no_flags (p : String) (env : GitEnv)
    (h : (checkRepoStatus p env).isClean = true) :
    (checkRepoStatus p env).hasUnstaged = false ∧
    (checkRepoStatus p env).hasStaged = false ∧
    (checkRepoStatus p env).hasUntracked = false ∧
    (checkRepoStatus p env).hasUnpushed = false := by
  unfold checkRepoStatus at h ⊢
  cases hval : validityCheck p env with
  | some st =>
    simp only [hval] at h ⊢
    rw [(validityCheck_some p env st hval).1] at h
    cases h
  | none =>
    simp only [hval] at h ⊢
    cases hu : unstagedStep env (branchStep env { path := p }) with
    | error st' =>
      simp only [hu] at h ⊢
      rw [(unstagedStep_error_same env _ st' hu).1, branchStep_isClean] at h
      cases h
    | ok st₁ =>
      simp only [hu] at h ⊢
      cases hs : stagedStep env st₁ with
      | error st' =>
        simp only [hs] at h ⊢
        rw [(stagedStep_error_same env st₁ st' hs).1,
          (unstagedStep_ok_same env _ st₁ hu).1, branchStep_isClean] at h
        cases h
      | ok st₂ =>
        simp only [hs] at h ⊢
        cases ht : untrackedStep env st₂ with
        | error st' =>
          simp only [ht] at h ⊢
          rw [(untrackedStep_error_same env st₂ st' ht).1,
            (stagedStep_ok_same env st₁ st₂ hs).1,
            (unstagedStep_ok_same env _ st₁ hu).1, branchStep_isClean] at h
          cases h
        | ok st₃ =>
          simp only [ht] at h ⊢
          have hf := finalize_fields (unpushedStep env st₃)
          rw [hf.2.2.2.2.2] at h
          simp only [Bool.and_eq_true, Bool.not_eq_true'] at h
          refine ⟨?_, ?_, ?_, ?_⟩
          · rw [hf.1]; exact h.1.1.1
          · rw [hf.2.1]; exact h.1.1.2
          · rw [hf.2.2.1]; exact h.1.2
          · rw [hf.2.2.2.1]; exact h.2

/-- C1 witness: a fully clean probe satisfies the hypothesis and the
conclusion of the amended claim. -/
theorem claim1_witness :
    (checkRepoStatus "/home/u/proj" cleanEnv).isClean = true ∧
    ((checkRepoStatus "/home/u/proj" cleanEnv).hasUnstaged = false ∧
     (checkRepoStatus "/home/u/proj" cleanEnv).hasStaged = false ∧
     (checkRepoStatus "/home/u/proj" cleanEnv).hasUntracked = false ∧
     (checkRepoStatus "/home/u/proj" cleanEnv).hasUnpushed = false) :=
  ⟨by decide, claim1_isClean_no_flags "/home/u/proj" cleanEnv (by decide)⟩

/-- C2 counterexample: an aborted probe (validity check fails) returns with
all four flags unset yet `isClean = false`, so "isClean iff the four
flags are all false" fails for early-returned statuses. -/
theorem claim2_counterexample :
    ¬ ((checkRepoStatus "/r" invalidEnv).isClean =
        (!(checkRepoStatus "/r" invalidEnv).hasUnstaged &&
         !(checkRepoStatus "/r" invalidEnv).hasStaged &&
         !(checkRepoStatus "/r" invalidEnv).hasUntracked &&
         !(checkRepoStatus "/r" invalidEnv).hasUnpushed)) := by decide

/-- C2 (amended): when the probe reaches the end without an aborting error
(the validity check and the three listing commands succeed), `isClean`
is true iff the four flags are all false; a probe aborted by any of
those four commands failing always has `isClean = false`. -/
theorem claim2_isClean_iff_flags (p : String) (env : GitEnv) :
    ((∃ g, env.revParseGitDir = .ok g) → (∃ o, env.diffNameOnly = .ok o) →
     (∃ o, env.diffCachedNameOnly = .ok o) → (∃ o, env.lsFilesOthers = .ok o) →
     (checkRepoStatus p env).isClean =
       (!(checkRepoStatus p env).hasUnstaged &&
        !(checkRepoStatus p env).hasStaged &&
        !(checkRepoStatus p env).hasUntracked &&
        !(checkRepoStatus p env).hasUnpushed)) ∧
    ((∃ e, env.revParseGitDir = .error e) → (checkRepoStatus p env).isClean = false) ∧
    ((∃ e, env.diffNameOnly = .error e) → (checkRepoStatus p env).isClean = false) ∧
    ((∃ e, env.diffCachedNameOnly = .error e) → (checkRepoStatus p env).isClean = false) ∧
    ((∃ e, env.lsFilesOthers = .error e) → (checkRepoStatus p env).isClean = false) := by
  refine ⟨?_, ?_, ?_, ?_, ?_⟩
  · rintro ⟨g, hg⟩ ⟨o₁, h₁⟩ ⟨o₂, h₂⟩ ⟨o₃, h₃⟩
    unfold checkRepoStatus
    rw [validityCheck_ok p env g hg]
    simp only [unstagedStep_ok_eq env _ o₁ h₁, stagedStep_ok_eq env _ o₂ h₂,
      untrackedStep_ok_eq env _ o₃ h₃]
    have hf := finalize_fields
      (unpushedStep env
        { branchStep env { path := p } with
          hasUnstaged := nonBlank o₁, hasStaged := nonBlank o₂, hasUntracked := nonBlank o₃ })
    rw [hf.2.2.2.2.2, hf.1, hf.2.1, hf.2.2.1, hf.2.2.2.1]
  · rintro ⟨e, he⟩
    exact validityCheck_error_isClean p env e he
  · rintro ⟨e, he⟩
    unfold checkRepoStatus
    cases hval : validityCheck p env with
    | some st =>
      simp only [hval]
      exact (validityCheck_some p env st hval).1
    | none =>
      simp only [hval]
      obtain ⟨st', hu⟩ := unstagedStep_error_of env (branchStep env { path := p }) e he
      simp only [hu]
      rw [(unstagedStep_error_same env _ st' hu).1, branchStep_isClean]
  · rintro ⟨e, he⟩
    unfold checkRepoStatus
    cases hval : validityCheck p env with
    | some st =>
      simp only [hval]
      exact (validityCheck_some p env st hval).1
    | none =>
      simp only [hval]
      cases hu : unstagedStep env (branchStep env { path := p }) with
      | error st' =>
        simp only [hu]
        rw [(unstagedStep_error_same env _ st' hu).1, branchStep_isClean]
      | ok st₁ =>
        simp only [hu]
        obtain ⟨st', hs⟩ := stagedStep_error_of env st₁ e he
        simp only [hs]
        rw [(stagedStep_error_same env st₁ st' hs).1,
          (unstagedStep_ok_same env _ st₁ hu).1, branchStep_isClean]
  · rintro ⟨e, he⟩
    unfold checkRepoStatus
    cases hval : validityCheck p env with
    | some st =>
      simp only [hval]
      exact (validityCheck_some p env st hval).1
    | none =>
      simp only [hval]
      cases hu : unstagedStep env (branchStep env { path := p }) with
      | error st' =>
        simp only [hu]
        rw [(unstagedStep_error_same env _ st' hu).1, branchStep_isClean]
      | ok st₁ =>
        simp only [hu]
        cases hs : stagedStep env st₁ with
        | error st' =>
          simp only [hs]
          rw [(stagedStep_error_same env st₁ st' hs).1,
            (unstagedStep_ok_same env _ st₁ hu).1, branchStep_isClean]
        | ok st₂ =>
          simp only [hs]
          obtain ⟨st', ht⟩ := untrackedStep_error_of env st₂ e he
          simp only [ht]
          rw [(untrackedStep_error_same env st₂ st' ht).1,
            (stagedStep_ok_same env st₁ st₂ hs).1,
            (unstagedStep_ok_same env _ st₁ hu).1, branchStep_isClean]

/-- C2 witness: a probe in which every command succeeds, with one untracked
file reported, has `isClean = false` matching its flags; and a probe
whose validity check fails has `isClean = false`. -/
theorem claim2_witness :
    (∃ g, cleanEnv.revParseGitDir = .ok g) ∧
    (checkRepoStatus "/home/u/proj" cleanEnv).isClean =
      (!(checkRepoStatus "/home/u/proj" cleanEnv).hasUnstaged &&
       !(checkRepoStatus "/home/u/proj" cleanEnv).hasStaged &&
       !(checkRepoStatus "/home/u/proj" cleanEnv).hasUntracked &&
       !(checkRepoStatus "/home/u/proj" cleanEnv).hasUnpushed) :=
  ⟨⟨".git\n", rfl⟩,
    (claim2_isClean_iff_flags "/home/u/proj" cleanEnv).1
      ⟨".git\n", rfl⟩ ⟨"", rfl⟩ ⟨"", rfl⟩ ⟨"", rfl⟩⟩

/-- C3: when the validity check fails with stderr containing the
dubious-ownership text, the probe returns immediately: the whole result
is the fresh status whose only non-default fields are the path and the
fix-hint error message naming
`git config --global --add safe.directory` with every backslash of the
path replaced by a forward slash; in particular all four boolean flags
are unset and no further step ran. -/
theorem claim3_ownership_hint (p stderr : String) (code : Nat) (env : GitEnv)
    (h : env.revParseGitDir = .error (.exitError code stderr))
    (hd : strContains stderr "dubious ownership" = true) :
    checkRepoStatus p env =
      { path := p,
        error := "Git ownership issue - run: git config --global --add safe.directory "
          ++ slashify p } := by
  unfold checkRepoStatus validityCheck
  rw [h]
  simp only [hd]
  rfl

/-- C3 witness: a concrete dubious-ownership failure on a Windows-style
path produces exactly the fix hint with normalized separators. -/
theorem claim3_witness :
    dubiousEnv.revParseGitDir =
      .error (.exitError 128 "fatal: detected dubious ownership in repository\n") ∧
    strContains "fatal: detected dubious ownership in repository\n" "dubious ownership" = true ∧
    checkRepoStatus "C:\\code\\proj" dubiousEnv =
      { path := "C:\\code\\proj",
        error := "Git ownership issue - run: git config --global --add safe.directory "
          ++ slashify "C:\\code\\proj" } :=
  ⟨rfl, by decide,
    claim3_ownership_hint "C:\\code\\proj"
      "fatal: detected dubious ownership in repository\n" 128 dubiousEnv rfl (by decide)⟩

example : slashify "C:\\code\\proj" = "C:/code/proj" := by decide

section BranchPropagation

variable (p : String) (env : GitEnv) (st st' : RepoStatus)

theorem unstagedStep_error_branch (h : unstagedStep env st = .error st') :
    st'.branch = st.branch ∧ ((st.error == "") = false → ∃ m, st'.error = st.error ++ m) := by
  simp only [unstagedStep] at h
  split at h
  · split at h <;> cases h
    · exact ⟨rfl, fun hne => by simp_all⟩
    · exact ⟨rfl, fun hne => ⟨_, (String.append_assoc _ _ _)⟩⟩
  · cases h

theorem stagedStep_error_branch (h : stagedStep env st = .error st') :
    st'.branch = st.branch ∧ ((st.error == "") = false → ∃ m, st'.error = st.error ++ m) := by
  simp only [stagedStep] at h
  split at h
  · split at h <;> cases h
    · exact ⟨rfl, fun hne => by simp_all⟩
    · exact ⟨rfl, fun hne => ⟨_, (String.append_assoc _ _ _)⟩⟩
  · cases h

theorem untrackedStep_error_branch (h : untrackedStep env st = .error st') :
    st'.branch = st.branch ∧ ((st.error == "") = false → ∃ m, st'.error = st.error ++ m) := by
  simp only [untrackedStep] at h
  split at h
  · split at h <;> cases h
    · exact ⟨rfl, fun hne => by simp_all⟩
    · exact ⟨rfl, fun hne => ⟨_, (String.append_assoc _ _ _)⟩⟩
  · cases h

theorem unstagedStep_ok_branch (h : unstagedStep env st = .ok st') :
    st'.branch = st.branch := by
  simp only [unstagedStep] at h
  split at h
  · split at h <;> cases h
  · cases h; rfl

theorem stagedStep_ok_branch (h : stagedStep env st = .ok st') :
    st'.branch = st.branch := by
  simp only [stagedStep] at h
  split at h
  · split at h <;> cases h
  · cases h; rfl

theorem untrackedStep_ok_branch (h : untrackedStep env st = .ok st') :
    st'.branch = st.branch := by
  simp only [untrackedStep] at h
  split at h
  · split at h <;> cases h
  · cases h; rfl

theorem unpushedStep_branch : (unpushedStep env st).branch = st.branch := by
  unfold unpushedStep
  split
  · split <;> rfl
  · split
    · split
      · split <;> rfl
      · rfl
    · rfl

theorem finalize_branch : (finalize st).branch = st.branch := rfl

/-- Under a passing validity check, the branch label of the final status is
exactly what the branch step computed: no later step modifies it. -/
theorem checkRepoStatus_branch_eq (g : String) (hg : env.revParseGitDir = .ok g) :
    (checkRepoStatus p env).branch = (branchStep env { path := p }).branch := by
  unfold checkRepoStatus
  rw [validityCheck_ok p env g hg]
  cases hu : unstagedStep env (branchStep env { path := p }) with
  | error st' =>
    simp only [hu]
    exact (unstagedStep_error_branch env _ st' hu).1
  | ok st₁ =>
    simp only [hu]
    cases hs : stagedStep env st₁ with
    | error st' =>
      simp only [hs]
      rw [(stagedStep_error_branch env st₁ st' hs).1]
      exact unstagedStep_ok_branch env _ st₁ hu
    | ok st₂ =>
      simp only [hs]
      cases ht : untrackedStep env st₂ with
      | error st' =>
        simp only [ht]
        rw [(untrackedStep_error_branch env st₂ st' ht).1,
          stagedStep_ok_branch env st₁ st₂ hs]
        exact unstagedStep_ok_branch env _ st₁ hu
      | ok st₃ =>
        simp only [ht]
        rw [finalize_branch, unpushedStep_branch,
          untrackedStep_ok_branch env st₂ st₃ ht, stagedStep_ok_branch env st₁ st₂ hs]
        exact unstagedStep_ok_branch env _ st₁ hu

/-- Under a passing validity check, the final error message extends the
branch step's non-empty error message on the right: a later aborting
step appends to it but never erases it. -/
theorem checkRepoStatus_error_extends (g : String) (hg : env.revParseGitDir = .ok g)
    (hne : ((branchStep env { path := p }).error == "") = false) :
    ∃ m, (checkRepoStatus p env).error = (branchStep env { path := p }).error ++ m := by
  unfold checkRepoStatus
  rw [validityCheck_ok p env g hg]
  cases hu : unstagedStep env (branchStep env { path := p }) with
  | error st' =>
    simp only [hu]
    exact (unstagedStep_error_branch env _ st' hu).2 hne
  | ok st₁ =>
    simp only [hu]
    have he₁ : st₁.error = (branchStep env { path := p }).error :=
      (unstagedStep_ok_same env _ st₁ hu).2.2.2.2
    have hne₁ : (st₁.error == "") = false := by rw [he₁]; exact hne
    cases hs : stagedStep env st₁ with
    | error st' =>
      simp only [hs]
      obtain ⟨m, hm⟩ := (stagedStep_error_branch env st₁ st' hs).2 hne₁
      exact ⟨m, by rw [hm, he₁]⟩
    | ok st₂ =>
      simp only [hs]
      have he₂ : st₂.error = st₁.error := (stagedStep_ok_same env st₁ st₂ hs).2.2.2.2
      have hne₂ : (st₂.error == "") = false := by rw [he₂]; exact hne₁
      cases ht : untrackedStep env st₂ with
      | error st' =>
        simp only [ht]
        obtain ⟨m, hm⟩ := (untrackedStep_error_branch env st₂ st' ht).2 hne₂
        exact ⟨m, by rw [hm, he₂, he₁]⟩
      | ok st₃ =>
        simp only [ht]
        have he₃ : st₃.error = st₂.error := (untrackedStep_ok_same env st₂ st₃ ht).2.2.2.2
        refine ⟨"", ?_⟩
        rw [(finalize_fields (unpushedStep env st₃)).2.2.2.2.1,
          (unpushedStep_same env st₃).2.2.2.2, he₃, he₂, he₁, String.append_empty]

end BranchPropagation

theorem append_left_ne_empty (a x : String) (ha : a.data.length ≠ 0) :
    ((a ++ x) == "") = false := by
  rw [beq_eq_false_iff_ne]
  intro h
  have hl : (a ++ x).data.length = (0 : Nat) := by rw [h]; rfl
  rw [String.data_append, List.length_append] at hl
  omega

/-- A probe of a detached-HEAD repository whose hash fallback succeeds. -/
def detachedEnv : GitEnv :=
  { cleanEnv with branchShowCurrent := .error (.exitError 1 "") }

/-- C4: under a passing validity check, the branch step behaves as claimed:
(i) a branch failure with the detached-state exit code 1 whose short-hash
fallback succeeds yields branch "detached HEAD (<hash>)"; (ii) if the
fallback also fails, branch is "detached HEAD" and an error
"Branch issue: exit status 1" is recorded (possibly extended by a later
aborting step); (iii) any other branch failure yields branch "unknown"
and records "Branch issue: <err>"; and (iv) after any branch failure the
remaining steps still run: when the three listing commands succeed the
three flags are computed from their outputs. -/
theorem claim4_branch_handling (p : String) (env : GitEnv) (g : String)
    (hg : env.revParseGitDir = .ok g) :
    (∀ s hsh, env.branchShowCurrent = .error (.exitError 1 s) →
      env.revParseShortHead = .ok hsh →
      (checkRepoStatus p env).branch = "detached HEAD (" ++ trimSpace hsh ++ ")") ∧
    (∀ s e₂, env.branchShowCurrent = .error (.exitError 1 s) →
      env.revParseShortHead = .error e₂ →
      (checkRepoStatus p env).branch = "detached HEAD" ∧
      ∃ m, (checkRepoStatus p env).error =
        ("Branch issue: " ++ CmdError.toMessage (.exitError 1 s)) ++ m) ∧
    (∀ e, env.branchShowCurrent = .error e → e.isNoBranch = false →
      (checkRepoStatus p env).branch = "unknown" ∧
      ∃ m, (checkRepoStatus p env).error = ("Branch issue: " ++ e.toMessage) ++ m) ∧
    (∀ e o₁ o₂ o₃, env.branchShowCurrent = .error e →
      env.diffNameOnly = .ok o₁ → env.diffCachedNameOnly = .ok o₂ →
      env.lsFilesOthers = .ok o₃ →
      (checkRepoStatus p env).hasUnstaged = nonBlank o₁ ∧
      (checkRepoStatus p env).hasStaged = nonBlank o₂ ∧
      (checkRepoStatus p env).hasUntracked = nonBlank o₃) := by
  refine ⟨?_, ?_, ?_, ?_⟩
  · intro s hsh hb hh
    rw [checkRepoStatus_branch_eq p env g hg]
    simp [branchStep, hb, hh, CmdError.isNoBranch]
  · intro s e₂ hb hh
    have hbe : branchStep env { path := p } =
        { path := p, branch := "detached HEAD",
          error := "Branch issue: " ++ CmdError.toMessage (.exitError 1 s) } := by
      simp [branchStep, hb, hh, CmdError.isNoBranch]
    constructor
    · rw [checkRepoStatus_branch_eq p env g hg, hbe]
    · have hne : ((branchStep env { path := p }).error == "") = false := by
        rw [hbe]
        exact append_left_ne_empty _ _ (by decide)
      obtain ⟨m, hm⟩ := checkRepoStatus_error_extends p env g hg hne
      exact ⟨m, by rw [hm, hbe]⟩
  · intro e hb hnb
    have hbe : branchStep env { path := p } =
        { path := p, branch := "unknown",
          error := "Branch issue: " ++ e.toMessage } := by
      simp [branchStep, hb, hnb]
    constructor
    · rw [checkRepoStatus_branch_eq p env g hg, hbe]
    · have hne : ((branchStep env { path := p }).error == "") = false := by
        rw [hbe]
        exact append_left_ne_empty _ _ (by decide)
      obtain ⟨m, hm⟩ := checkRepoStatus_error_extends p env g hg hne
      exact ⟨m, by rw [hm, hbe]⟩
  · intro e o₁ o₂ o₃ hb h₁ h₂ h₃
    unfold checkRepoStatus
    rw [validityCheck_ok p env g hg]
    simp only [unstagedStep_ok_eq env _ o₁ h₁, stagedStep_ok_eq env _ o₂ h₂,
      untrackedStep_ok_eq env _ o₃ h₃]
    set stf : RepoStatus :=
      { branchStep env { path := p } with
        hasUnstaged := nonBlank o₁, hasStaged := nonBlank o₂, hasUntracked := nonBlank o₃ }
    have hf := finalize_fields (unpushedStep env stf)
    have hp := unpushedStep_same env stf
    exact ⟨by rw [hf.1, hp.2.1], by rw [hf.2.1, hp.2.2.1], by rw [hf.2.2.1, hp.2.2.2.1]⟩

/-- C4 witness: a detached-HEAD repository with a successful hash fallback
gets the composed "detached HEAD (abc1234)" label. -/
theorem claim4_witness :
    detachedEnv.revParseGitDir = .ok ".git\n" ∧
    detachedEnv.branchShowCurrent = .error (.exitError 1 "") ∧
    detachedEnv.revParseShortHead = .ok "abc1234\n" ∧
    (checkRepoStatus "/r" detachedEnv).branch = "detached HEAD (" ++ trimSpace "abc1234\n" ++ ")" :=
  ⟨rfl, rfl, rfl,
    (claim4_branch_handling "/r" detachedEnv ".git\n" rfl).1 "" "abc1234\n" rfl rfl⟩

section AbortEquations

variable (p : String) (env : GitEnv) (st : RepoStatus) (e : CmdError)

theorem unstagedStep_error_eq (he : env.diffNameOnly = .error e) :
    unstagedStep env st = .error { st with error :=
      if (st.error == "") = true then "Failed to check unstaged changes: " ++ e.toMessage
      else st.error ++ "; unstaged check failed: " ++ e.toMessage } := by
  simp only [unstagedStep, he]
  split <;> rfl

theorem stagedStep_error_eq (he : env.diffCachedNameOnly = .error e) :
    stagedStep env st = .error { st with error :=
      if (st.error == "") = true then "Failed to check staged changes: " ++ e.toMessage
      else st.error ++ "; staged check failed: " ++ e.toMessage } := by
  simp only [stagedStep, he]
  split <;> rfl

theorem untrackedStep_error_eq (he : env.lsFilesOthers = .error e) :
    untrackedStep env st = .error { st with error :=
      if (st.error == "") = true then "Failed to check untracked files: " ++ e.toMessage
      else st.error ++ "; untracked check failed: " ++ e.toMessage } := by
  simp only [untrackedStep, he]
  split <;> rfl

/-- When the validity check and the three listing commands all succeed the
probe runs to the end: the result is the finalized status after the
unpushed step, with each flag computed from its command output. -/
theorem checkRepoStatus_completes (g o₁ o₂ o₃ : String)
    (hg : env.revParseGitDir = .ok g) (h₁ : env.diffNameOnly = .ok o₁)
    (h₂ : env.diffCachedNameOnly = .ok o₂) (h₃ : env.lsFilesOthers = .ok o₃) :
    checkRepoStatus p env =
      finalize (unpushedStep env
        { branchStep env { path := p } with
          hasUnstaged := nonBlank o₁, hasStaged := nonBlank o₂,
          hasUntracked := nonBlank o₃ }) := by
  unfold checkRepoStatus
  rw [validityCheck_ok p env g hg]
  simp only [unstagedStep_ok_eq env _ o₁ h₁, stagedStep_ok_eq env _ o₂ h₂,
    untrackedStep_ok_eq env _ o₃ h₃]

end AbortEquations

/-- C5: under a passing validity check, for each of the unstaged-diff,
staged-diff and untracked listing steps: (a) when the commands succeed
the corresponding flag equals the non-blankness of the trimmed output;
(b,c,d) a failure of one of the three commands aborts the probe — the
later flags stay unset, `isClean` stays false, and the error message is
set if the branch step left it empty, or extended with the "; " separator
otherwise. -/
theorem claim5_listing_steps (p : String) (env : GitEnv) (g : String)
    (hg : env.revParseGitDir = .ok g) :
    (∀ o₁ o₂ o₃, env.diffNameOnly = .ok o₁ → env.diffCachedNameOnly = .ok o₂ →
      env.lsFilesOthers = .ok o₃ →
      (checkRepoStatus p env).hasUnstaged = nonBlank o₁ ∧
      (checkRepoStatus p env).hasStaged = nonBlank o₂ ∧
      (checkRepoStatus p env).hasUntracked = nonBlank o₃) ∧
    (∀ e, env.diffNameOnly = .error e →
      (checkRepoStatus p env).error =
        (if ((branchStep env { path := p }).error == "") = true
         then "Failed to check unstaged changes: " ++ e.toMessage
         else (branchStep env { path := p }).error ++ "; unstaged check failed: "
           ++ e.toMessage) ∧
      (checkRepoStatus p env).hasUnstaged = false ∧
      (checkRepoStatus p env).hasStaged = false ∧
      (checkRepoStatus p env).hasUntracked = false ∧
      (checkRepoStatus p env).hasUnpushed = false ∧
      (checkRepoStatus p env).isClean = false) ∧
    (∀ o₁ e, env.diffNameOnly = .ok o₁ → env.diffCachedNameOnly = .error e →
      (checkRepoStatus p env).error =
        (if ((branchStep env { path := p }).error == "") = true
         then "Failed to check staged changes: " ++ e.toMessage
         else (branchStep env { path := p }).error ++ "; staged check failed: "
           ++ e.toMessage) ∧
      (checkRepoStatus p env).hasUnstaged = nonBlank o₁ ∧
      (checkRepoStatus p env).hasStaged = false ∧
      (checkRepoStatus p env).hasUntracked = false ∧
      (checkRepoStatus p env).hasUnpushed = false ∧
      (checkRepoStatus p env).isClean = false) ∧
    (∀ o₁ o₂ e, env.diffNameOnly = .ok o₁ → env.diffCachedNameOnly = .ok o₂ →
      env.lsFilesOthers = .error e →
      (checkRepoStatus p env).error =
        (if ((branchStep env { path := p }).error == "") = true
         then "Failed to check untracked files: " ++ e.toMessage
         else (branchStep env { path := p }).error ++ "; untracked check failed: "
           ++ e.toMessage) ∧
      (checkRepoStatus p env).hasUnstaged = nonBlank o₁ ∧
      (checkRepoStatus p env).hasStaged = nonBlank o₂ ∧
      (checkRepoStatus p env).hasUntracked = false ∧
      (checkRepoStatus p env).hasUnpushed = false ∧
      (checkRepoStatus p env).isClean = false) := by
  refine ⟨?_, ?_, ?_, ?_⟩
  · intro o₁ o₂ o₃ h₁ h₂ h₃
    rw [checkRepoStatus_completes p env g o₁ o₂ o₃ hg h₁ h₂ h₃]
    set stf : RepoStatus :=
      { branchStep env { path := p } with
        hasUnstaged := nonBlank o₁, hasStaged := nonBlank o₂, hasUntracked := nonBlank o₃ }
    have hf := finalize_fields (unpushedStep env stf)
    have hp := unpushedStep_same env stf
    exact ⟨by rw [hf.1, hp.2.1], by rw [hf.2.1, hp.2.2.1], by rw [hf.2.2.1, hp.2.2.2.1]⟩
  · intro e he
    unfold checkRepoStatus
    rw [validityCheck_ok p env g hg]
    simp only [unstagedStep_error_eq env _ e he]
    exact ⟨trivial, (branchStep_flags env _).1, (branchStep_flags env _).2.1,
      (branchStep_flags env _).2.2.1, (branchStep_flags env _).2.2.2,
      branchStep_isClean env _⟩
  · intro o₁ e h₁ he
    unfold checkRepoStatus
    rw [validityCheck_ok p env g hg]
    simp only [unstagedStep_ok_eq env _ o₁ h₁]
    simp only [stagedStep_error_eq env _ e he]
    exact ⟨trivial, trivial, (branchStep_flags env _).2.1,
      (branchStep_flags env _).2.2.1, (branchStep_flags env _).2.2.2,
      branchStep_isClean env _⟩
  · intro o₁ o₂ e h₁ h₂ he
    unfold checkRepoStatus
    rw [validityCheck_ok p env g hg]
    simp only [unstagedStep_ok_eq env _ o₁ h₁, stagedStep_ok_eq env _ o₂ h₂]
    simp only [untrackedStep_error_eq env _ e he]
    exact ⟨trivial, trivial, trivial,
      (branchStep_flags env _).2.2.1, (branchStep_flags env _).2.2.2,
      branchStep_isClean env _⟩

/-- A probe where the unstaged diff reports a file and the staged diff
command fails. -/
def stagedFailEnv : GitEnv :=
  { cleanEnv with
    diffNameOnly := .ok "file.go\n",
    diffCachedNameOnly := .error (.otherError "boom") }

/-- C5 witness: with a non-blank unstaged diff and a failing staged-diff
command, the unstaged flag is set from the output, the probe aborts with
the staged-failure message, and the later flags stay unset. -/
theorem claim5_witness :
    (checkRepoStatus "/r" stagedFailEnv).error =
      (if ((branchStep stagedFailEnv { path := "/r" }).error == "") = true
       then "Failed to check staged changes: " ++ CmdError.toMessage (.otherError "boom")
       else (branchStep stagedFailEnv { path := "/r" }).error ++ "; staged check failed: "
         ++ CmdError.toMessage (.otherError "boom")) ∧
    (checkRepoStatus "/r" stagedFailEnv).hasUnstaged = nonBlank "file.go\n" ∧
    (checkRepoStatus "/r" stagedFailEnv).isClean = false :=
  have h := (claim5_listing_steps "/r" stagedFailEnv ".git\n" rfl).2.2.1
    "file.go\n" (.otherError "boom") rfl rfl
  ⟨h.1, h.2.1, h.2.2.2.2.2⟩

section UnpushedEquations

variable (env : GitEnv) (st : RepoStatus)

theorem unpushedStep_fallback_hasUnpushed (s c : String)
    (hu : env.revListUpstream = .error (.exitError 128 s))
    (hc : env.revListHead = .ok c) (h0 : st.hasUnpushed = false) :
    (unpushedStep env st).hasUnpushed = (trimSpace c != "0") := by
  cases hb : (trimSpace c != "0") with
  | true =>
    simp only [unpushedStep, hu, hc, CmdError.isNoUpstream, hb]
    simp
  | false =>
    simp only [unpushedStep, hu, hc, CmdError.isNoUpstream, hb]
    simp [h0]

theorem unpushedStep_fallbackFail_eq (s : String) (e₂ : CmdError)
    (hu : env.revListUpstream = .error (.exitError 128 s))
    (hc : env.revListHead = .error e₂) :
    unpushedStep env st = st := by
  simp only [unpushedStep, hu, hc, CmdError.isNoUpstream]
  simp

theorem unpushedStep_other_eq (e : CmdError)
    (hu : env.revListUpstream = .error e) (hnu : e.isNoUpstream = false) :
    unpushedStep env st = st := by
  simp only [unpushedStep, hu, hnu]
  simp

end UnpushedEquations

/-- A probe with no upstream configured and five local commits. -/
def noUpstreamEnv : GitEnv :=
  { cleanEnv with
    revListUpstream := .error (.exitError 128 "fatal: no upstream configured\n"),
    revListHead := .ok "5\n" }

/-- C6: for a probe that reaches the unpushed step (validity and the three
listing commands succeed): (i) a failure of the upstream count with exit
code 128 falls back to counting all commits on HEAD, and `hasUnpushed`
is set iff that trimmed count is not "0"; (ii) if the fallback count also
fails, `hasUnpushed` stays false and no error is recorded; (iii) any
other failure of the upstream count leaves `hasUnpushed` false, records
no error, and the probe still completes, computing `isClean` from the
three listing flags.  (The Go code additionally prints a debug line for
case (iii) in debug mode; printing is outside this model.) -/
theorem claim6_unpushed_best_effort (p : String) (env : GitEnv) (g o₁ o₂ o₃ : String)
    (hg : env.revParseGitDir = .ok g) (h₁ : env.diffNameOnly = .ok o₁)
    (h₂ : env.diffCachedNameOnly = .ok o₂) (h₃ : env.lsFilesOthers = .ok o₃) :
    (∀ s c, env.revListUpstream = .error (.exitError 128 s) → env.revListHead = .ok c →
      (checkRepoStatus p env).hasUnpushed = (trimSpace c != "0")) ∧
    (∀ s e₂, env.revListUpstream = .error (.exitError 128 s) →
      env.revListHead = .error e₂ →
      (checkRepoStatus p env).hasUnpushed = false ∧
      (checkRepoStatus p env).error = (branchStep env { path := p }).error) ∧
    (∀ e, env.revListUpstream = .error e → e.isNoUpstream = false →
      (checkRepoStatus p env).hasUnpushed = false ∧
      (checkRepoStatus p env).error = (branchStep env { path := p }).error ∧
      (checkRepoStatus p env).isClean =
        (!nonBlank o₁ && !nonBlank o₂ && !nonBlank o₃)) := by
  have key := checkRepoStatus_completes p env g o₁ o₂ o₃ hg h₁ h₂ h₃
  refine ⟨?_, ?_, ?_⟩
  · intro s c hu hc
    rw [key, (finalize_fields _).2.2.2.1]
    exact unpushedStep_fallback_hasUnpushed env _ s c hu hc
      ((branchStep_flags env _).2.2.2)
  · intro s e₂ hu hc
    rw [key, unpushedStep_fallbackFail_eq env _ s e₂ hu hc]
    exact ⟨(branchStep_flags env _).2.2.2, rfl⟩
  · intro e hu hnu
    rw [key, unpushedStep_other_eq env _ e hu hnu]
    refine ⟨(branchStep_flags env _).2.2.2, rfl, ?_⟩
    rw [(finalize_fields _).2.2.2.2.2]
    show (!nonBlank o₁ && !nonBlank o₂ && !nonBlank o₃ &&
      !(branchStep env { path := p }).hasUnpushed) = _
    rw [(branchStep_flags env _).2.2.2]
    simp

/-- C6 witness: no upstream configured (exit 128) with five commits on HEAD
sets the unpushed flag. -/
theorem claim6_witness :
    (checkRepoStatus "/r" noUpstreamEnv).hasUnpushed = (trimSpace "5\n" != "0") ∧
    (trimSpace "5\n" != "0") = true :=
  ⟨(claim6_unpushed_best_effort "/r" noUpstreamEnv ".git\n" "" "" ""
      rfl rfl rfl rfl).1 "fatal: no upstream configured\n" "5\n" rfl rfl,
    by decide⟩

mutual

theorem descended_spec : ∀ (parent : List String) (t : FSEntry),
    ∀ p ∈ (walkAcc parent t).2, ∃ b, p.getLast? = some b ∧ b ≠ ".git" ∧
      skipDir b (pathString p) = false
  | parent, .file n => by simp [walkAcc]
  | parent, .dir name children => by
    intro p hp
    simp only [walkAcc] at hp
    split at hp
    · simp at hp
    · split at hp
      · simp at hp
      · rename_i hname hskip
        rcases List.mem_cons.mp hp with rfl | hmem
        · refine ⟨name, List.getLast?_concat _, ?_, ?_⟩
          · simpa using hname
          · simpa using hskip
        · exact descended_forest_spec (parent ++ [name]) children p hmem

theorem descended_forest_spec : ∀ (path : List String) (f : FSForest),
    ∀ p ∈ (walkListAcc path f).2, ∃ b, p.getLast? = some b ∧ b ≠ ".git" ∧
      skipDir b (pathString p) = false
  | path, .nil => by simp [walkListAcc]
  | path, .cons c cs => by
    intro p hp
    simp only [walkListAcc] at hp
    rcases List.mem_append.mp hp with h | h
    · exact descended_spec path c p h
    · exact descended_forest_spec path cs p h

end

mutual

theorem repos_spec : ∀ (parent : List String) (t : FSEntry),
    parent.getLast? ≠ some ".git" → ∀ r ∈ (walkAcc parent t).1, r.getLast? ≠ some ".git"
  | parent, .file n => by simp [walkAcc]
  | parent, .dir name children => by
    intro hpar r hr
    simp only [walkAcc] at hr
    split at hr
    · simp at hr
      subst hr
      exact hpar
    · split at hr
      · simp at hr
      · rename_i hname hskip
        refine repos_forest_spec (parent ++ [name]) children ?_ r hr
        rw [List.getLast?_concat]
        intro hcon
        exact (by simpa using hname : ¬ name = ".git") (Option.some.inj hcon)

theorem repos_forest_spec : ∀ (path : List String) (f : FSForest),
    path.getLast? ≠ some ".git" → ∀ r ∈ (walkListAcc path f).1, r.getLast? ≠ some ".git"
  | path, .nil => by simp [walkListAcc]
  | path, .cons c cs => by
    intro hpath r hr
    simp only [walkListAcc] at hr
    rcases List.mem_append.mp hr with h | h
    · exact repos_spec path c hpath r h
    · exact repos_forest_spec path cs hpath r h

end

/-- C7 counterexample: scanning a root that is itself a `.git` directory
sitting directly inside another `.git` directory (root path
`x/.git/.git`) yields the repository path `x/.git`, whose last segment
is `.git` — so "never yields a repository path whose last path segment
is .git" fails as an unconditional statement. -/
theorem claim7_counterexample :
    findGitRepos ["x", ".git"] (.dir ".git" .nil) = [["x", ".git"]] ∧
    (["x", ".git"] : List String).getLast? = some ".git" := by
  constructor
  · decide
  · decide

/-- C7 (amended): (a) every directory the walk descends into has a base
name that is neither ".git" nor matched by the skip test (hidden names,
node_modules, vendor, bin, obj, or a Windows system-path substring);
(b) a directory named ".git" records its parent as a repository and is
never entered; (c) provided the scan root's parent path does not itself
end in a ".git" segment, no yielded repository path has ".git" as its
last segment.  (Without that proviso the claim fails, see the
counterexample.) -/
theorem claim7_git_dirs (rootParent : List String) (t : FSEntry) :
    (∀ p ∈ descendedDirs rootParent t, ∃ b, p.getLast? = some b ∧ b ≠ ".git" ∧
      skipDir b (pathString p) = false) ∧
    (∀ cs, walkAcc rootParent (.dir ".git" cs) = ([rootParent], [])) ∧
    (rootParent.getLast? ≠ some ".git" →
      ∀ r ∈ findGitRepos rootParent t, r.getLast? ≠ some ".git") :=
  ⟨fun p hp => descended_spec rootParent t p hp,
   fun cs => by simp [walkAcc],
   fun h r hr => repos_spec rootParent t h r hr⟩

/-- C7 witness: on a concrete tree the locator finds exactly the one
repository, its path does not end in ".git", and the hypothesis on the
root's parent path holds. -/
theorem claim7_witness :
    (["home"] : List String).getLast? ≠ some ".git" ∧
    findGitRepos ["home"]
      (.dir "u" (forestOf
        [.dir "proj" (forestOf [.dir ".git" (forestOf [.dir "objects" .nil]), .file "main.go"]),
         .dir "node_modules" (forestOf [.dir "x" (forestOf [.dir ".git" .nil])]),
         .dir ".cache" (forestOf [.dir ".git" .nil])]))
      = [["home", "u", "proj"]] ∧
    (["home", "u", "proj"] : List String).getLast? ≠ some ".git" :=
  ⟨by decide, by decide,
    (claim7_git_dirs ["home"]
      (.dir "u" (forestOf
        [.dir "proj" (forestOf [.dir ".git" (forestOf [.dir "objects" .nil]), .file "main.go"]),
         .dir "node_modules" (forestOf [.dir "x" (forestOf [.dir ".git" .nil])]),
         .dir ".cache" (forestOf [.dir ".git" .nil])]))).2.2
      (by decide) ["home", "u", "proj"] (by decide)⟩

theorem countP_not_add {α : Type} (p : α → Bool) (l : List α) :
    l.countP (fun a => !p a) + l.countP p = l.length := by
  induction l with
  | nil => simp
  | cons hd tl ih =>
    simp only [List.countP_cons, List.length_cons]
    cases p hd <;> simp <;> omega

/-- C8: in dirty-only mode the collection loop drops exactly the statuses
with an empty error and a set clean flag and keeps every other status;
the report renders one row per kept status, so a result set with 2 clean
entries among 5 yields exactly 3 rows; and the dirty-only summary line
depends only on the dirty and error counts — the clean count is
omitted. -/
theorem claim8_dirty_only (statuses : List RepoStatus) :
    (∀ st ∈ statuses, st.error = "" → st.isClean = true →
      st ∉ collectResults true statuses) ∧
    (∀ st ∈ statuses, ¬(st.error = "" ∧ st.isClean = true) →
      st ∈ collectResults true statuses) ∧
    (∀ relOf : String → String,
      statuses.countP (fun st => st.error == "" && st.isClean) = 2 →
      statuses.length = 5 →
      (displayRepoStatusTable relOf (collectResults true statuses)).length = 3) ∧
    (∀ results results₂ : List RepoStatus,
      (summaryCounts results).2 = (summaryCounts results₂).2 →
      summaryLine true results = summaryLine true results₂) := by
  refine ⟨?_, ?_, ?_, ?_⟩
  · intro st hst herr hcl hmem
    have h := (List.mem_filter.mp hmem).2
    simp [herr, hcl] at h
  · intro st hst hne
    refine List.mem_filter.mpr ⟨hst, ?_⟩
    cases he : st.error == "" with
    | false => simp [he]
    | true =>
      cases hc : st.isClean with
      | false => simp [he, hc]
      | true => exact absurd ⟨by simpa using he, hc⟩ hne
  · intro relOf h2 h5
    simp only [displayRepoStatusTable, List.length_map, collectResults, Bool.true_and]
    rw [← List.countP_eq_length_filter]
    have hadd := countP_not_add (fun st => st.error == "" && st.isClean) statuses
    rw [h2, h5] at hadd
    omega
  · intro results results₂ h
    simp only [summaryLine, if_true]
    rw [h]

/-- Five statuses: two clean, three dirty. -/
def demoStatuses : List RepoStatus :=
  [{ path := "/a", branch := "main", isClean := true },
   { path := "/b", branch := "main", isClean := true },
   { path := "/c", branch := "dev", hasUnstaged := true },
   { path := "/d", branch := "dev", hasUntracked := true },
   { path := "/e", branch := "dev", hasStaged := true, hasUnpushed := true }]

/-- C8 witness: the concrete 2-clean / 3-dirty result set renders exactly 3
rows in dirty-only mode. -/
theorem claim8_witness :
    demoStatuses.countP (fun st => st.error == "" && st.isClean) = 2 ∧
    demoStatuses.length = 5 ∧
    (displayRepoStatusTable id (collectResults true demoStatuses)).length = 3 :=
  ⟨by decide, by decide, (claim8_dirty_only demoStatuses).2.2.1 id (by decide) (by decide)⟩

theorem summaryCounts_go : ∀ (l : List RepoStatus) (c d e : Nat),
    List.foldl (fun acc st =>
      if st.error != "" then (acc.1, acc.2.1, acc.2.2 + 1)
      else if st.isClean then (acc.1 + 1, acc.2.1, acc.2.2)
      else (acc.1, acc.2.1 + 1, acc.2.2)) (c, d, e) l =
    (c + l.countP (fun st => st.error == "" && st.isClean),
     d + l.countP (fun st => st.error == "" && !st.isClean),
     e + l.countP (fun st => st.error != ""))
  | [], c, d, e => by simp
  | st :: tl, c, d, e => by
    simp only [List.foldl_cons, List.countP_cons]
    cases he : st.error == "" <;> cases hc : st.isClean <;>
      (rw [summaryCounts_go tl]; simp [bne, he, hc, Prod.ext_iff]; omega)

/-- C10 (implicit): the reporter and the summary classify on the error text
first — a status with a non-empty errorMessage always gets the Error
marker with the error text as its changes column, and the summary's
three counters count exactly: clean = no error and clean flag,
dirty = no error and clean flag unset, error = non-empty error — so an
errored status is never rendered or counted as Clean or Dirty, whatever
its flags. -/
theorem claim10_error_first :
    (∀ st : RepoStatus, st.error ≠ "" →
      statusMarker st = "❌ Error" ∧ tableChanges st = st.error) ∧
    (∀ results : List RepoStatus,
      summaryCounts results =
        (results.countP (fun st => st.error == "" && st.isClean),
         results.countP (fun st => st.error == "" && !st.isClean),
         results.countP (fun st => st.error != ""))) := by
  constructor
  · intro st h
    constructor
    · simp [statusMarker, bne, h]
    · simp [tableChanges, bne, h]
  · intro results
    unfold summaryCounts
    rw [summaryCounts_go]
    simp

/-- C10 witness: a status carrying both a non-empty error and a set clean
flag is rendered as an error and counted only in the error total. -/
theorem claim10_witness :
    statusMarker { path := "/r", isClean := true, error := "Branch issue: exit status 2" }
      = "❌ Error" ∧
    summaryCounts [{ path := "/r", isClean := true, error := "Branch issue: exit status 2" }]
      = (0, 0, 1) :=
  ⟨(claim10_error_first.1
      { path := "/r", isClean := true, error := "Branch issue: exit status 2" }
      (by decide)).1,
   by rw [claim10_error_first.2
      [{ path := "/r", isClean := true, error := "Branch issue: exit status 2" }]]; decide⟩

section CsvRoundTrip

theorem string_append_mk_nil (field : String) : field ++ String.mk [] = field :=
  String.ext (by simp [String.data_append])

theorem string_push_mk (field : String) (c : Char) (cs : List Char) :
    field.push c ++ String.mk cs = field ++ String.mk (c :: cs) :=
  String.ext (by simp [String.data_append, String.data_push])

theorem scan_unquoted_append (l : List Char) :
    ∀ (rest : List Char) (field : String) (row : List String) (rows : List (List String)),
    (∀ c ∈ l, c ≠ ',' ∧ c ≠ '\n') →
    csvScan (l ++ rest) .unquoted field row rows
      = csvScan rest .unquoted (field ++ String.mk l) row rows := by
  induction l with
  | nil =>
    intro rest field row rows _
    rw [List.nil_append, string_append_mk_nil]
  | cons c cs ih =>
    intro rest field row rows h
    have hc := h c (List.mem_cons_self _ _)
    rw [List.cons_append]
    have hstep : csvScan (c :: (cs ++ rest)) .unquoted field row rows
        = csvScan (cs ++ rest) .unquoted (field.push c) row rows := by
      simp [csvScan, hc.1, hc.2]
    rw [hstep, ih rest (field.push c) row rows
      (fun c' hc' => h c' (List.mem_cons_of_mem _ hc')), string_push_mk]

theorem scan_quoted_append (l : List Char) :
    ∀ (rest : List Char) (field : String) (row : List String) (rows : List (List String)),
    csvScan (escapeQuotes l ++ rest) .quoted field row rows
      = csvScan rest .quoted (field ++ String.mk l) row rows := by
  induction l with
  | nil =>
    intro rest field row rows
    rw [show escapeQuotes [] = [] from rfl, List.nil_append, string_append_mk_nil]
  | cons c cs ih =>
    intro rest field row rows
    by_cases hq : c = '"'
    · subst hq
      have hesc : escapeQuotes ('"' :: cs) = '"' :: '"' :: escapeQuotes cs := by
        simp [escapeQuotes]
      rw [hesc, List.cons_append, List.cons_append]
      have hstep : csvScan ('"' :: '"' :: (escapeQuotes cs ++ rest)) .quoted field row rows
          = csvScan (escapeQuotes cs ++ rest) .quoted (field.push '"') row rows := by
        simp [csvScan]
      rw [hstep, ih rest (field.push '"') row rows, string_push_mk]
    · have hesc : escapeQuotes (c :: cs) = c :: escapeQuotes cs := by
        simp [escapeQuotes, hq]
      rw [hesc, List.cons_append]
      have hstep : csvScan (c :: (escapeQuotes cs ++ rest)) .quoted field row rows
          = csvScan (escapeQuotes cs ++ rest) .quoted (field.push c) row rows := by
        simp [csvScan, hq]
      rw [hstep, ih rest (field.push c) row rows, string_push_mk]

theorem noQuotes_chars (f : String) (h : fieldNeedsQuotes f = false) :
    ∀ c ∈ f.data, c ≠ ',' ∧ c ≠ '"' ∧ c ≠ '\n' := by
  intro c hc
  unfold fieldNeedsQuotes at h
  split at h
  · rename_i hf
    rw [show f = "" from by simpa using hf] at hc
    cases hc
  · split at h
    · cases h
    · rw [Bool.or_eq_false_iff] at h
      have hany := h.1
      rw [List.any_eq_false] at hany
      have := hany c hc
      have h4 : ((c ≠ ',' ∧ c ≠ '"') ∧ c ≠ '\r') ∧ c ≠ '\n' := by simpa using this
      exact ⟨h4.1.1.1, h4.1.1.2, h4.2⟩

theorem scan_field_comma (f : String) :
    ∀ (rest : List Char) (row : List String) (rows : List (List String)),
    csvScan ((encodeField f).data ++ ',' :: rest) .fieldStart "" row rows
      = csvScan rest .fieldStart "" (row ++ [f]) rows := by
  intro rest row rows
  by_cases hq : fieldNeedsQuotes f = true
  · have hdata : (encodeField f).data = '"' :: (escapeQuotes f.data ++ ['"']) := by
      simp [encodeField, hq, String.data_append]
    rw [hdata, List.cons_append]
    have h1 : csvScan ('"' :: ((escapeQuotes f.data ++ ['"']) ++ ',' :: rest))
          .fieldStart "" row rows
        = csvScan ((escapeQuotes f.data ++ ['"']) ++ ',' :: rest) .quoted "" row rows := by
      simp [csvScan]
    rw [h1, List.append_assoc, scan_quoted_append f.data (['"'] ++ ',' :: rest) "" row rows]
    have hf : ("" ++ String.mk f.data) = f := String.ext (by simp [String.data_append])
    rw [hf]
    simp [csvScan]
  · rw [Bool.not_eq_true] at hq
    have hdata : (encodeField f).data = f.data := by simp [encodeField, hq]
    rw [hdata]
    cases hfd : f.data with
    | nil =>
      have hf : f = "" := String.ext (by simp [hfd])
      rw [List.nil_append]
      simp [csvScan, hf]
    | cons c cs =>
      have hchars := noQuotes_chars f hq
      have hc := hchars c (by rw [hfd]; exact List.mem_cons_self _ _)
      rw [List.cons_append]
      have h1 : csvScan (c :: (cs ++ ',' :: rest)) .fieldStart "" row rows
          = csvScan (cs ++ ',' :: rest) .unquoted ("".push c) row rows := by
        simp [csvScan, hc.1, hc.2.1, hc.2.2]
      rw [h1, scan_unquoted_append cs (',' :: rest) _ row rows
        (fun c' hc' => ⟨(hchars c' (by rw [hfd]; exact List.mem_cons_of_mem _ hc')).1,
                        (hchars c' (by rw [hfd]; exact List.mem_cons_of_mem _ hc')).2.2⟩)]
      have hf : "".push c ++ String.mk cs = f := by
        apply String.ext
        simp [String.data_append, String.data_push, hfd]
      rw [hf]
      simp [csvScan]

theorem scan_field_newline (f : String) :
    ∀ (rest : List Char) (row : List String) (rows : List (List String)),
    ¬(row = [] ∧ f = "") →
    csvScan ((encodeField f).data ++ '\n' :: rest) .fieldStart "" row rows
      = csvScan rest .fieldStart "" [] (rows ++ [row ++ [f]]) := by
  intro rest row rows hrf
  by_cases hq : fieldNeedsQuotes f = true
  · have hdata : (encodeField f).data = '"' :: (escapeQuotes f.data ++ ['"']) := by
      simp [encodeField, hq, String.data_append]
    rw [hdata, List.cons_append]
    have h1 : csvScan ('"' :: ((escapeQuotes f.data ++ ['"']) ++ '\n' :: rest))
          .fieldStart "" row rows
        = csvScan ((escapeQuotes f.data ++ ['"']) ++ '\n' :: rest) .quoted "" row rows := by
      simp [csvScan]
    rw [h1, List.append_assoc, scan_quoted_append f.data (['"'] ++ '\n' :: rest) "" row rows]
    have hf : ("" ++ String.mk f.data) = f := String.ext (by simp [String.data_append])
    rw [hf]
    simp [csvScan]
  · rw [Bool.not_eq_true] at hq
    have hdata : (encodeField f).data = f.data := by simp [encodeField, hq]
    rw [hdata]
    cases hfd : f.data with
    | nil =>
      have hf : f = "" := String.ext (by simp [hfd])
      have hrow : row ≠ [] := fun h => hrf ⟨h, hf⟩
      rw [List.nil_append]
      simp [csvScan, hf, hrow]
    | cons c cs =>
      have hchars := noQuotes_chars f hq
      have hc := hchars c (by rw [hfd]; exact List.mem_cons_self _ _)
      rw [List.cons_append]
      have h1 : csvScan (c :: (cs ++ '\n' :: rest)) .fieldStart "" row rows
          = csvScan (cs ++ '\n' :: rest) .unquoted ("".push c) row rows := by
        simp [csvScan, hc.1, hc.2.1, hc.2.2]
      rw [h1, scan_unquoted_append cs ('\n' :: rest) _ row rows
        (fun c' hc' => ⟨(hchars c' (by rw [hfd]; exact List.mem_cons_of_mem _ hc')).1,
                        (hchars c' (by rw [hfd]; exact List.mem_cons_of_mem _ hc')).2.2⟩)]
      have hf : "".push c ++ String.mk cs = f := by
        apply String.ext
        simp [String.data_append, String.data_push, hfd]
      rw [hf]
      simp [csvScan]

theorem scan_fields : ∀ (fs : List String),
    ∀ (row : List String) (rows : List (List String)) (rest : List Char),
    fs ≠ [] → (row = [] → fs ≠ [""]) →
    csvScan ((encodeFields fs).data ++ '\n' :: rest) .fieldStart "" row rows
      = csvScan rest .fieldStart "" [] (rows ++ [row ++ fs])
  | [] => by
    intro _ _ _ h _
    exact absurd rfl h
  | [f] => by
    intro row rows rest _ hspecial
    have hnot : ¬(row = [] ∧ f = "") := by
      rintro ⟨hrow, hf⟩
      exact (hspecial hrow) (by rw [hf])
    simpa only [encodeFields] using scan_field_newline f rest row rows hnot
  | f :: f₂ :: fs'' => by
    intro row rows rest _ hspecial
    have hdata : (encodeFields (f :: f₂ :: fs'')).data
        = (encodeField f).data ++ ',' :: (encodeFields (f₂ :: fs'')).data := by
      show (encodeField f ++ "," ++ encodeFields (f₂ :: fs'')).data = _
      simp [String.data_append]
    rw [hdata, List.append_assoc, List.cons_append, scan_field_comma f]
    rw [scan_fields (f₂ :: fs'') (row ++ [f]) rows rest (by simp)
      (fun h => absurd h (by simp))]
    rw [List.append_assoc]
    rfl

theorem scan_records : ∀ (rs : List (List String)),
    ∀ (acc : List (List String)), (∀ r ∈ rs, r ≠ [] ∧ r ≠ [""]) →
    csvScan (csvEncode rs).data .fieldStart "" [] acc = acc ++ rs
  | [] => by
    intro acc _
    simp [csvEncode, csvScan]
  | r :: rs' => by
    intro acc h
    have hdata : (csvEncode (r :: rs')).data
        = (encodeFields r).data ++ '\n' :: (csvEncode rs').data := by
      show (encodeFields r ++ "\n" ++ csvEncode rs').data = _
      simp [String.data_append]
    rw [hdata, scan_fields r [] acc (csvEncode rs').data
      (h r (List.mem_cons_self _ _)).1
      (fun _ => (h r (List.mem_cons_self _ _)).2)]
    rw [scan_records rs' (acc ++ [[] ++ r])
      (fun r' hr' => h r' (List.mem_cons_of_mem _ hr'))]
    simp

/-- Modelled round trip of Go's `encoding/csv`: parsing a written file
recovers exactly the records written, for records that are neither empty
nor the lone empty field (whose line would be blank and skipped by the
reader). -/
theorem csvParse_csvEncode (rs : List (List String))
    (h : ∀ r ∈ rs, r ≠ [] ∧ r ≠ [""]) :
    csvParse (csvEncode rs) = rs := by
  unfold csvParse
  rw [scan_records rs [] h]
  simp

end CsvRoundTrip

/-- A clean status used to compare the export file with the text report. -/
def cleanStatus : RepoStatus := { path := "p", branch := "main", isClean := true }

/-- C9 counterexample: for a clean repository the re-read export file's
Status column is "Clean" while the rendered report's status cell is
"✅ Clean" — the two columns do not match as strings, so the round-trip
claim fails as stated. -/
theorem claim9_counterexample :
    (csvParse (exportToCSV id [cleanStatus]))[1]? = some ["p", "main", "Clean", ""] ∧
    statusMarker cleanStatus = "✅ Clean" ∧
    ("Clean" : String) ≠ "✅ Clean" := by
  refine ⟨by decide, by decide, by decide⟩

/-- C9 (amended): writing N statuses produces the header row (Repository,
Branch, Status, Changes) followed by exactly N data rows, and re-reading
the file recovers exactly the written rows (stated for carriage-return
free fields, since the reader's CRLF normalization inside quoted fields
is outside the model).  Each re-read row's Repository column is the same
`displayPath` value the text report renders; the Status column carries
the report's classification but as the plain words "Clean" / "Dirty" /
"Error: <message>" where the report shows marker strings, so the Status
columns correspond without being string-equal. -/
theorem claim9_export_round_trip (relOf : String → String) (results : List RepoStatus)
    (hcr : ∀ st ∈ results, ∀ f ∈ csvRow relOf st, '\r' ∉ f.data) :
    csvParse (exportToCSV relOf results) = csvHeader :: results.map (csvRow relOf) ∧
    (csvParse (exportToCSV relOf results)).length = results.length + 1 ∧
    (∀ st ∈ results,
      (csvRow relOf st).head? = some (displayPath relOf st.path) ∧
      (tableCells relOf st).head? = some (displayPath relOf st.path) ∧
      (st.error ≠ "" →
        csvStatusText st = "Error: " ++ st.error ∧ statusMarker st = "❌ Error") ∧
      (st.error = "" → st.isClean = true →
        csvStatusText st = "Clean" ∧ statusMarker st = "✅ Clean") ∧
      (st.error = "" → st.isClean = false →
        csvStatusText st = "Dirty" ∧ statusMarker st = "⚠️  Dirty")) := by
  have hmain : csvParse (exportToCSV relOf results)
      = csvHeader :: results.map (csvRow relOf) := by
    unfold exportToCSV
    apply csvParse_csvEncode
    intro r hr
    rcases List.mem_cons.mp hr with rfl | hr
    · exact ⟨by simp [csvHeader], by simp [csvHeader]⟩
    · obtain ⟨st, _, rfl⟩ := List.mem_map.mp hr
      exact ⟨by simp [csvRow], by simp [csvRow]⟩
  refine ⟨hmain, by rw [hmain]; simp, ?_⟩
  intro st _
  refine ⟨rfl, rfl, ?_, ?_, ?_⟩
  · intro h
    exact ⟨by simp [csvStatusText, bne, h], by simp [statusMarker, bne, h]⟩
  · intro h hc
    exact ⟨by simp [csvStatusText, bne, h, hc], by simp [statusMarker, bne, h, hc]⟩
  · intro h hc
    exact ⟨by simp [csvStatusText, bne, h, hc], by simp [statusMarker, bne, h, hc]⟩

/-- C9 witness: for the one-status collection the re-read file is exactly
the header plus that status's row. -/
theorem claim9_witness :
    (∀ st ∈ [cleanStatus], ∀ f ∈ csvRow id st, '\r' ∉ f.data) ∧
    csvParse (exportToCSV id [cleanStatus])
      = csvHeader :: [cleanStatus].map (csvRow id) :=
  ⟨by decide, (claim9_export_round_trip id [cleanStatus] (by decide)).1⟩

end FindUncommitted
